import Mathlib

/-!
Shallow embedding of the gif-maker conversion core: the time model of the
timeline component, the settings validator and dimension math of the
video-utils module, the ffmpeg command builder and conversion service, and
the converter page orchestrator. JS numbers are modelled as rationals;
JS Math.floor and Math.round become Int.floor based operations; strings are
modelled as lists of characters where parsing matters.
-/

namespace GifMaker

/-- JS Math.floor on a rational value. -/
def mathFloor (x : ℚ) : ℤ := ⌊x⌋

/-- JS Math.round on a rational value: floor of x + 1/2 (ties round up, as in JS). -/
def mathRound (x : ℚ) : ℤ := ⌊x + 1/2⌋

/-- JS truncation toward zero, as used by the JS remainder operator. -/
def jsTrunc (x : ℚ) : ℤ := if 0 ≤ x then ⌊x⌋ else ⌈x⌉

/-- The JS remainder operator a % b, which takes the sign of the dividend. -/
def jsFmod (a b : ℚ) : ℚ := a - b * (jsTrunc (a / b) : ℚ)

/-! Dimension math from src/utils/video-utils (calculateHeightFromWidth,
calculateWidthFromHeight). -/

/-- calculateHeightFromWidth from the video utils: round(width / aspectRatio),
returning width unchanged when aspectRatio is 0. -/
def calculateHeightFromWidth (width aspectRatio : ℚ) : ℚ :=
  if aspectRatio = 0 then width else (mathRound (width / aspectRatio) : ℚ)

/-- calculateWidthFromHeight from the video utils: round(height * aspectRatio). -/
def calculateWidthFromHeight (height aspectRatio : ℚ) : ℚ :=
  (mathRound (height * aspectRatio) : ℚ)

/-! Mark IN / Mark OUT math from the video-timeline component. -/

/-- The new start time computed by handleMarkIn in the timeline component:
max(0, min(currentTime, localEndTime - 0.1)). -/
def handleMarkIn (currentTime localEndTime : ℚ) : ℚ :=
  max 0 (min currentTime (localEndTime - 1/10))

/-- The new end time computed by handleMarkOut in the timeline component:
min(duration, max(currentTime, localStartTime + 0.1)). -/
def handleMarkOut (duration currentTime localStartTime : ℚ) : ℚ :=
  min duration (max currentTime (localStartTime + 1/10))

/-! Conversion settings and the settings validator. The service level
ConversionSettings interface carries quality, frameRate, width, height and
the trim window startTime/endTime. -/

/-- ConversionSettings as declared in the ffmpeg service interface. -/
structure ConversionSettings where
  quality : ℚ
  frameRate : ℚ
  width : ℚ
  height : ℚ
  startTime : ℚ
  endTime : ℚ
deriving DecidableEq

/-- Result shape of validateSettings: an isValid flag plus an optional error text. -/
structure ValidationResult where
  isValid : Bool
  error : Option String
deriving DecidableEq

/-- validateSettings from the video utils, translated check for check:
quality range, frame rate enumeration, width range, height range; any
settings object passing those four checks is reported valid. -/
def validateSettings (s : ConversionSettings) : ValidationResult :=
  if s.quality < 1 ∨ s.quality > 100 then
    ⟨false, some "Quality must be between 1 and 100"⟩
  else if ¬(s.frameRate = 10 ∨ s.frameRate = 15 ∨ s.frameRate = 20 ∨
      s.frameRate = 24 ∨ s.frameRate = 30) then
    ⟨false, some "Frame rate must be 10, 15, 20, 24, or 30 fps"⟩
  else if s.width < 100 ∨ s.width > 1920 then
    ⟨false, some "Width must be between 100 and 1920 pixels"⟩
  else if s.height < 100 ∨ s.height > 1920 then
    ⟨false, some "Height must be between 100 and 1920 pixels"⟩
  else
    ⟨true, none⟩

/-! Decimal rendering of numbers, modelling JS template interpolation and
Number.toFixed. Defined with explicit fuel so that everything reduces in the
kernel. -/

/-- The decimal digit character for a value below ten. -/
def digitChar : ℕ → Char
  | 0 => '0'
  | 1 => '1'
  | 2 => '2'
  | 3 => '3'
  | 4 => '4'
  | 5 => '5'
  | 6 => '6'
  | 7 => '7'
  | 8 => '8'
  | _ => '9'

/-- Big-endian decimal digits of a natural number, with fuel for structural
recursion; empty for zero. -/
def natDigitsAux : ℕ → ℕ → List Char
  | 0, _ => []
  | fuel + 1, n => if n = 0 then [] else natDigitsAux fuel (n / 10) ++ [digitChar (n % 10)]

/-- Decimal rendering of a natural number, as JS renders it in a template. -/
def renderNat (n : ℕ) : List Char := if n = 0 then ['0'] else natDigitsAux n n

/-- Decimal rendering of an integer, as JS renders it in a template. -/
def renderInt (i : ℤ) : List Char :=
  if i < 0 then '-' :: renderNat i.natAbs else renderNat i.natAbs

/-- JS String.prototype.padStart with the zero character: prepend zeros up to
the requested length. -/
def padStart (k : ℕ) (l : List Char) : List Char := List.replicate (k - l.length) '0' ++ l

/-- JS Number.prototype.toFixed(3): round to the nearest thousandth, ties
toward the larger value, and render with exactly three decimals. -/
def toFixed3 (x : ℚ) : List Char :=
  let n : ℤ := ⌊x * 1000 + 1/2⌋
  let a := n.natAbs
  (if n < 0 then ['-'] else []) ++ renderNat (a / 1000) ++ '.' :: padStart 3 (renderNat (a % 1000))

/-- JS template interpolation of a number. It is modelled exactly for integral
values, the only values the converter produces for frame rate and dimensions;
non-integral values fall back to a fixed-point rendering. -/
def jsNumToString (x : ℚ) : List Char :=
  if x.den = 1 then renderInt x.num else toFixed3 x

/-! The time model of the timeline component: formatTime and parseTime. -/

/-- Is the character a decimal digit. -/
def isDigit (c : Char) : Bool := 48 ≤ c.toNat && c.toNat ≤ 57

/-- Numeric value of a digit character. -/
def digitVal (c : Char) : ℕ := c.toNat - 48

/-- Value of a big-endian string of digit characters. -/
def digitsVal (l : List Char) : ℕ := l.foldl (fun a c => 10 * a + digitVal c) 0

/-- The longest digit prefix of a string read as a number; none models the
NaN result of JS parseInt when no digit is found. -/
def parseIntDigits (l : List Char) : Option ℤ :=
  let ds := l.takeWhile isDigit
  if ds = [] then none else some (digitsVal ds : ℤ)

/-- JS Number.parseInt with radix ten: skip leading spaces, read an optional
sign, then take the longest digit prefix; none models the NaN result. -/
def parseIntJS (l : List Char) : Option ℤ :=
  let l1 := l.dropWhile (fun c => c = ' ')
  if l1.headD ' ' = '-' then (parseIntDigits l1.tail).map (fun v => -v)
  else if l1.headD ' ' = '+' then parseIntDigits l1.tail
  else parseIntDigits l1

/-- JS String.prototype.split at a single separator character. -/
def jsSplit (c : Char) : List Char → List (List Char)
  | [] => [[]]
  | x :: xs =>
    if x = c then [] :: jsSplit c xs
    else
      match jsSplit c xs with
      | h :: t => (x :: h) :: t
      | [] => [[x]]

/-- formatTime from the timeline component: minutes unpadded, then seconds
and centiseconds zero-padded to two digits, every component truncated. -/
def formatTime (seconds : ℚ) : List Char :=
  let mins := mathFloor (seconds / 60)
  let secs := mathFloor (jsFmod seconds 60)
  let ms := mathFloor (jsFmod seconds 1 * 100)
  renderInt mins ++ ':' :: (padStart 2 (renderInt secs) ++ '.' :: padStart 2 (renderInt ms))

/-- The centisecond component read by parseTime: the second dot-split field
divided by one hundred, zero when the field is absent or empty; the inner
none models a NaN leaking through this field, which the code never checks. -/
def parseMs : List (List Char) → Option ℚ
  | _ :: s1 :: _ =>
    if s1 = [] then some 0 else (parseIntJS s1).map (fun n => (n : ℚ) / 100)
  | _ => some 0

/-- The body of parseTime on the colon-split fields: two fields are read as
minutes and seconds with an optional centisecond tail, one field as bare
seconds, anything else is rejected. The outer option is the null return of
the code, the inner option separates a NaN total from a real number. -/
def parseTimeParts : List (List Char) → Option (Option ℚ)
  | [p0, p1] =>
    let mins := parseIntJS p0
    let secsParts := jsSplit '.' p1
    let secs := parseIntJS (secsParts.headD [])
    let ms := parseMs secsParts
    match mins, secs with
    | some m, some s => some (ms.map (fun c => (m : ℚ) * 60 + (s : ℚ) + c))
    | _, _ => none
  | [p0] =>
    let secsParts := jsSplit '.' p0
    let secs := parseIntJS (secsParts.headD [])
    let ms := parseMs secsParts
    match secs with
    | some s => some (ms.map (fun c => (s : ℚ) + c))
    | none => none
  | _ => none

/-- parseTime from the timeline component: split at colons and read the
fields. -/
def parseTime (timeStr : List Char) : Option (Option ℚ) :=
  parseTimeParts (jsSplit ':' timeStr)

/-! The ffmpeg command builder from the ffmpeg service. -/

/-- The palette size computed in buildFFmpegCommand:
Math.floor(16 + (quality / 100) * 240). -/
def maxColors (quality : ℚ) : ℤ := ⌊16 + quality / 100 * 240⌋

/-- buildFFmpegCommand from the ffmpeg service, translated argument for
argument: seek, input, duration, filter chain, loop flag, output. -/
def buildFFmpegCommand (inputFile outputFile : List Char) (s : ConversionSettings) :
    List (List Char) :=
  let mc := maxColors s.quality
  let filterComplex := List.intercalate [','] [
    "fps=".toList ++ jsNumToString s.frameRate,
    "scale=".toList ++ jsNumToString s.width ++ [':'] ++ jsNumToString s.height ++
      ":flags=lanczos".toList,
    "split[s0][s1]".toList,
    "[s0]palettegen=max_colors=".toList ++ renderInt mc ++ "[p]".toList,
    "[s1][p]paletteuse=dither=bayer:bayer_scale=5".toList]
  let trimDuration := s.endTime - s.startTime
  ["-ss".toList, toFixed3 s.startTime,
   "-i".toList, inputFile,
   "-t".toList, toFixed3 trimDuration,
   "-vf".toList, filterComplex,
   "-loop".toList, "0".toList,
   outputFile]

/-! The conversion service: convertToGif with its private storage and its
log-driven progress reporting. -/

/-- A log line emitted by the engine during execution, reduced to its match
results: the Date.now clock value at arrival, the Duration HH:MM:SS match
and the time=HH:MM:SS match, each as an hours, minutes, seconds triple. -/
structure LogEvent where
  now : ℤ
  durMatch : Option (ℕ × ℕ × ℕ)
  timeMatch : Option (ℕ × ℕ × ℕ)
deriving DecidableEq

/-- Seconds denoted by an hours, minutes, seconds triple. -/
def hmsToSecs : ℕ × ℕ × ℕ → ℕ
  | (h, m, s) => h * 3600 + m * 60 + s

/-- Mutable state of the log handler installed by convertToGif. -/
structure ProgressState where
  videoDuration : ℕ
  lastProgressUpdate : ℤ
deriving DecidableEq

/-- One step of the log handler: a Duration match updates the parsed
duration, then a time match with a known positive duration and at least
100ms since the last update reports min(current/duration*100, 100). -/
def logStep (st : ProgressState × List ℚ) (e : LogEvent) : ProgressState × List ℚ :=
  let st1 := match e.durMatch with
    | some t => ProgressState.mk (hmsToSecs t) st.1.lastProgressUpdate
    | none => st.1
  match e.timeMatch with
  | some t =>
    if 0 < st1.videoDuration then
      if 100 ≤ e.now - st1.lastProgressUpdate then
        (ProgressState.mk st1.videoDuration e.now,
         st.2 ++ [min ((hmsToSecs t : ℚ) / (st1.videoDuration : ℚ) * 100) 100])
      else (st1, st.2)
    else (st1, st.2)
  | none => (st1, st.2)

/-- Progress values delivered by the log handler over a sequence of log
events, starting from duration zero and last update zero. -/
def runLogHandler (events : List LogEvent) : List ℚ :=
  (events.foldl logStep (⟨0, 0⟩, [])).2

/-- The seconds values of the time matches of a log event sequence, in
order. -/
def timeSecs (events : List LogEvent) : List ℕ :=
  events.filterMap (fun e => e.timeMatch.map hmsToSecs)

/-- Name under which convertToGif stages the input bytes. -/
def inputFileName : String := "input.mp4"

/-- Name under which the engine writes the output bytes. -/
def outputFileName : String := "output.gif"

/-- Writing a file into the engine private storage, tracked by name. -/
def vfsWrite (fs : List String) (name : String) : List String :=
  if name ∈ fs then fs else fs ++ [name]

/-- Deleting a file from the engine private storage. -/
def vfsDelete (fs : List String) (name : String) : List String :=
  fs.filter (fun n => n ≠ name)

/-- Result of one convertToGif call: the returned or thrown value, the final
content of the engine private storage, and the progress values delivered to
onProgress in order. -/
structure ConvertResult where
  result : Except String Unit
  fs : List String
  emitted : List ℚ

/-- convertToGif from the ffmpeg service: guard on initialization, stage the
input, execute the built command while the log handler reports progress,
then on success read the output, delete the staged input and output, report
exactly 100 and return the blob; a failing execution is caught, wrapped and
rethrown, with no cleanup performed. The events are the log lines observed
during execution and exec is the engine verdict on the command. -/
def convertToGif (loaded : Bool) (fs0 : List String) (events : List LogEvent)
    (exec : Except String Unit) : ConvertResult :=
  if ¬loaded then
    ⟨Except.error "FFmpeg is not initialized. Please call initialize() first.", fs0, []⟩
  else
    let fs1 := vfsWrite fs0 inputFileName
    let emitted := runLogHandler events
    match exec with
    | Except.ok _ =>
      let fs2 := vfsWrite fs1 outputFileName
      let fs3 := vfsDelete (vfsDelete fs2 inputFileName) outputFileName
      ⟨Except.ok (), fs3, emitted ++ [100]⟩
    | Except.error msg =>
      ⟨Except.error ("Video conversion failed: " ++ msg ++
        ". Please try a different video file or adjust the settings."), fs1, emitted⟩

/-- The progress percentage reported for current time c and duration D:
min(c / D * 100, 100). -/
def progressOf (D c : ℕ) : ℚ := min ((c : ℚ) / (D : ℚ) * 100) 100

/-- Two log events whose time matches go backwards. -/
def badEvents : List LogEvent :=
  [⟨1000, some (0, 0, 10), some (0, 0, 8)⟩, ⟨2000, none, some (0, 0, 7)⟩]

/-- Two log events with one duration announcement and increasing times. -/
def goodEvents : List LogEvent :=
  [⟨1000, some (0, 0, 10), some (0, 0, 8)⟩, ⟨2000, none, some (0, 0, 9)⟩]

/-! The converter page orchestrator: state, reducer and handleConvert. -/

/-- The conversion status of the converter page. -/
inductive ConversionStatus
  | idle
  | loading
  | processing
  | complete
  | error
deriving DecidableEq

/-- The error object stored by the orchestrator; the retry action is
tracked by presence. -/
structure ErrorState where
  type : String
  message : String
  recoverable : Bool
  retryAction : Bool
deriving DecidableEq

/-- Video metadata extracted from the uploaded file. -/
structure VideoMetadata where
  duration : ℚ
  width : ℚ
  height : ℚ
  frameRate : ℚ
  aspectRatio : ℚ
deriving DecidableEq

/-- The converter page state managed by the reducer. -/
structure ConverterState where
  uploadedFile : Option String
  videoMetadata : Option VideoMetadata
  settings : ConversionSettings
  conversionStatus : ConversionStatus
  progress : ℚ
  gifBlob : Option String
  error : Option ErrorState
  ffmpegLoaded : Bool
deriving DecidableEq

/-- A partial settings object, as dispatched by UPDATE_SETTINGS. -/
structure SettingsPatch where
  quality : Option ℚ
  frameRate : Option ℚ
  width : Option ℚ
  height : Option ℚ
  startTime : Option ℚ
  endTime : Option ℚ

/-- Shallow merge of a partial settings object into the current settings. -/
def applyPatch (s : ConversionSettings) (p : SettingsPatch) : ConversionSettings :=
  ⟨p.quality.getD s.quality, p.frameRate.getD s.frameRate, p.width.getD s.width,
   p.height.getD s.height, p.startTime.getD s.startTime, p.endTime.getD s.endTime⟩

/-- The actions of the converter reducer. -/
inductive ConverterAction
  | setFile (file : String)
  | setMetadata (m : VideoMetadata)
  | updateSettings (p : SettingsPatch)
  | setStatus (st : ConversionStatus)
  | setProgress (p : ℚ)
  | setGifBlob (b : String)
  | setError (e : ErrorState)
  | clearError
  | setFFmpegLoaded (b : Bool)
  | reset

/-- The initial converter state. -/
def initialState : ConverterState :=
  ⟨none, none, ⟨80, 15, 800, 600, 0, 0⟩, ConversionStatus.idle, 0, none, none, false⟩

/-- converterReducer from the converter page, translated case for case. -/
def converterReducer (state : ConverterState) (action : ConverterAction) : ConverterState :=
  match action with
  | ConverterAction.setFile f =>
    { state with
      uploadedFile := some f, videoMetadata := none, gifBlob := none,
      progress := 0, conversionStatus := ConversionStatus.idle, error := none }
  | ConverterAction.setMetadata m =>
    let defaultWidth := min m.width 800
    let defaultHeight := (mathRound (defaultWidth / m.aspectRatio) : ℚ)
    { state with
      videoMetadata := some m,
      settings := { state.settings with
        width := defaultWidth, height := defaultHeight,
        startTime := 0, endTime := m.duration } }
  | ConverterAction.updateSettings p =>
    { state with settings := applyPatch state.settings p }
  | ConverterAction.setStatus st => { state with conversionStatus := st }
  | ConverterAction.setProgress p => { state with progress := p }
  | ConverterAction.setGifBlob b =>
    { state with
      gifBlob := some b, conversionStatus := ConversionStatus.complete,
      progress := 100 }
  | ConverterAction.setError e =>
    { state with error := some e, conversionStatus := ConversionStatus.error }
  | ConverterAction.clearError => { state with error := none }
  | ConverterAction.setFFmpegLoaded b => { state with ffmpegLoaded := b }
  | ConverterAction.reset => { initialState with ffmpegLoaded := state.ffmpegLoaded }

/-- The conversion timeout of handleConvert, five minutes in milliseconds. -/
def CONVERSION_TIMEOUT : ℤ := 5 * 60 * 1000

/-- Does the second string occur inside the first, as JS String.includes. -/
def occursIn (sub : List Char) : List Char → Bool
  | [] => sub.isEmpty
  | c :: t => sub.isPrefixOf (c :: t) || occursIn sub t

/-- JS String.prototype.includes. -/
def jsIncludes (s sub : String) : Bool := occursIn sub.toList s.toList

/-- The message classification of the initializeFFmpeg catch handler. -/
def initErrClassify (m : String) : String :=
  if jsIncludes m "network" ∨ jsIncludes m "fetch" then
    "Failed to load video processing library due to network issues. Please check your internet connection and try again."
  else if jsIncludes m "timeout" then
    "Loading video processing library timed out. Please check your internet connection and try again."
  else m

/-- The message classification of the handleConvert catch handler. -/
def classifyConversionError (msg : String) : String :=
  if jsIncludes msg "timed out" then msg
  else if jsIncludes msg "memory" ∨ jsIncludes msg "out of memory" then
    "Not enough memory to process this video. Try reducing the video dimensions, quality settings, or use a shorter video clip."
  else if jsIncludes msg "format" ∨ jsIncludes msg "codec" then
    "This video format or codec may not be supported. Please try converting the video to MP4 format first, or try a different video file."
  else if jsIncludes msg "corrupted" ∨ jsIncludes msg "invalid" then
    "The video file appears to be corrupted or invalid. Please try a different video file."
  else if jsIncludes msg "abort" then "Conversion was cancelled. Please try again."
  else msg

/-- The rejection message of the five minute timeout promise. -/
def timeoutMessage : String :=
  "Conversion timed out after 5 minutes. Please try with a shorter video or reduce the quality settings."

/-- Behaviour of the engine convert promise during one handleConvert call:
it either settles after t milliseconds with a blob or an error message, or
it never settles. -/
inductive ConvOutcome
  | resolves (t : ℤ) (r : Except String String)
  | never

/-- Outcome of one handleConvert call: whether the engine convert call was
invoked, the final page state, the wall-clock offset in milliseconds at
which the awaited race settled, and whether the engine convert promise is
still unsettled when handleConvert returns (Promise.race abandons the
loser without cancelling it). -/
structure HandleConvertResult where
  started : Bool
  final : ConverterState
  settledAt : Option ℤ
  enginePending : Bool
deriving DecidableEq

/-- handleConvert from the converter page: return early unless a file and
metadata are present; lazily initialize the engine (surfacing loading
status, with a failed initialization classified, stored and rethrown into
the outer catch); then dispatch processing status, zero progress and error
clearing, and race the engine convert call against a five minute timeout.
The conversion result, an engine failure or the timeout rejection then
produces the terminal dispatches of the source. -/
def handleConvert (s : ConverterState) (initR : Except String Unit) (conv : ConvOutcome) :
    HandleConvertResult :=
  if s.uploadedFile = none ∨ s.videoMetadata = none then ⟨false, s, none, false⟩
  else
    let init : ConverterState × Option String :=
      if s.ffmpegLoaded then (s, none)
      else
        match initR with
        | Except.ok _ =>
          (converterReducer (converterReducer (converterReducer s
            (ConverterAction.setStatus ConversionStatus.loading))
            (ConverterAction.setFFmpegLoaded true))
            (ConverterAction.setStatus ConversionStatus.idle), none)
        | Except.error m =>
          (converterReducer (converterReducer s
            (ConverterAction.setStatus ConversionStatus.loading))
            (ConverterAction.setError ⟨"ffmpeg", initErrClassify m, true, true⟩), some m)
    match init.2 with
    | some m =>
      ⟨false, converterReducer init.1
          (ConverterAction.setError ⟨"conversion", classifyConversionError m, true, true⟩),
        none, false⟩
    | none =>
      let s1 := converterReducer (converterReducer (converterReducer init.1
        (ConverterAction.setStatus ConversionStatus.processing))
        (ConverterAction.setProgress 0)) ConverterAction.clearError
      match conv with
      | ConvOutcome.resolves t r =>
        if t < CONVERSION_TIMEOUT then
          match r with
          | Except.ok blob =>
            ⟨true, converterReducer s1 (ConverterAction.setGifBlob blob), some t, false⟩
          | Except.error msg =>
            ⟨true, converterReducer s1
                (ConverterAction.setError
                  ⟨"conversion", classifyConversionError msg, true, true⟩),
              some t, false⟩
        else
          ⟨true, converterReducer s1
              (ConverterAction.setError
                ⟨"conversion", classifyConversionError timeoutMessage, true, true⟩),
            some CONVERSION_TIMEOUT, true⟩
      | ConvOutcome.never =>
        ⟨true, converterReducer s1
            (ConverterAction.setError
              ⟨"conversion", classifyConversionError timeoutMessage, true, true⟩),
          some CONVERSION_TIMEOUT, true⟩

/-- Is the page currently converting, as computed in the page component. -/
def isConverting (s : ConverterState) : Bool :=
  decide (s.conversionStatus = ConversionStatus.processing)

/-- Is the page currently loading the engine, as computed in the page
component. -/
def isLoading (s : ConverterState) : Bool :=
  decide (s.conversionStatus = ConversionStatus.loading)

/-- The disabled condition of the convert button: no file, no metadata,
converting, or loading. -/
def convertButtonDisabled (s : ConverterState) : Bool :=
  s.uploadedFile.isNone || s.videoMetadata.isNone || isConverting s || isLoading s

/-- A concrete metadata object for the worked examples. -/
def sampleMetadata : VideoMetadata := ⟨10, 1920, 1080, 30, 16/9⟩

/-- A page state mid-conversion: file and metadata present, engine loaded,
status processing, progress 50. -/
def processingState : ConverterState :=
  ⟨some "video.mp4", some sampleMetadata, ⟨80, 15, 800, 450, 0, 10⟩,
   ConversionStatus.processing, 50, none, none, true⟩

/-- A page state ready to convert: file and metadata present, engine
loaded, status idle. -/
def readyState : ConverterState :=
  ⟨some "video.mp4", some sampleMetadata, ⟨80, 15, 800, 450, 0, 10⟩,
   ConversionStatus.idle, 0, none, none, true⟩

/-! Helper lemmas about the renderers and the command builder. -/

lemma toFixed3_eq_of_floor (x : ℚ) (n : ℤ) (hn : 0 ≤ n) (h : ⌊x * 1000 + 1/2⌋ = n) :
    toFixed3 x = renderNat (n.natAbs / 1000) ++ '.' :: padStart 3 (renderNat (n.natAbs % 1000)) := by
  unfold toFixed3
  rw [h]
  simp only []
  rw [if_neg (not_lt.2 hn)]
  simp

/-- The built command in flattened normal form, with the filter chain joined. -/
lemma buildFFmpegCommand_flatten (i o : List Char) (s : ConversionSettings) :
    buildFFmpegCommand i o s =
      ["-ss".toList, toFixed3 s.startTime, "-i".toList, i, "-t".toList,
       toFixed3 (s.endTime - s.startTime), "-vf".toList,
       "fps=".toList ++ jsNumToString s.frameRate ++ [','] ++
         "scale=".toList ++ jsNumToString s.width ++ [':'] ++ jsNumToString s.height ++
         ":flags=lanczos,split[s0][s1],[s0]palettegen=max_colors=".toList ++
         renderInt (maxColors s.quality) ++ "[p],[s1][p]paletteuse=dither=bayer:bayer_scale=5".toList,
       "-loop".toList, "0".toList, o] := by
  simp [buildFFmpegCommand, List.intercalate, List.intersperse]

/-- C8: buildFFmpegCommand returns exactly the ordered argument sequence
seek to startTime with millisecond precision before the input, the input,
a duration limit of endTime minus startTime with millisecond precision, the
filter chain (frame rate, Lanczos scale to width by height, split,
palettegen, paletteuse with Bayer dithering at scale 5), infinite loop,
and the output name. -/
theorem buildFFmpegCommand_argument_order (i o : List Char) (s : ConversionSettings) :
    buildFFmpegCommand i o s =
      ["-ss".toList, toFixed3 s.startTime, "-i".toList, i, "-t".toList,
       toFixed3 (s.endTime - s.startTime), "-vf".toList,
       "fps=".toList ++ jsNumToString s.frameRate ++ [','] ++
         "scale=".toList ++ jsNumToString s.width ++ [':'] ++ jsNumToString s.height ++
         ":flags=lanczos,split[s0][s1],[s0]palettegen=max_colors=".toList ++
         renderInt (maxColors s.quality) ++ "[p],[s1][p]paletteuse=dither=bayer:bayer_scale=5".toList,
       "-loop".toList, "0".toList, o] :=
  buildFFmpegCommand_flatten i o s

/-- C1, counterexample: at quality 1 the built command's palettegen filter
carries max_colors 18, not 16, because floor of 16 plus 240 over 100 is 18. -/
theorem buildFFmpegCommand_quality1_counterexample :
    maxColors 1 = 18 ∧ maxColors 1 ≠ 16 ∧
    (buildFFmpegCommand "input.mp4".toList "output.gif".toList
        ⟨1, 15, 800, 600, 0, 5⟩).get? 7 =
      some ("fps=15,scale=800:600:flags=lanczos,split[s0][s1],[s0]palettegen=max_colors=18[p],[s1][p]paletteuse=dither=bayer:bayer_scale=5".toList) := by
  have hmc : maxColors 1 = 18 := by norm_num [maxColors]
  refine ⟨hmc, by rw [hmc]; decide, ?_⟩
  rw [buildFFmpegCommand_flatten]
  simp only [List.get?]
  rw [hmc]
  decide

/-- C1 amended: for every integer quality in one to one hundred, the filter
chain element of the built command carries a palettegen stage with
max colors equal to floor of 16 plus quality over 100 times 240; in
particular quality 80 yields 208, quality 1 yields 18, quality 100
yields 256. -/
theorem buildFFmpegCommand_palettegen_maxColors (q : ℤ) (h1 : 1 ≤ q) (h2 : q ≤ 100)
    (i o : List Char) (s : ConversionSettings) (hq : s.quality = (q : ℚ)) :
    (buildFFmpegCommand i o s).get? 7 =
      some ("fps=".toList ++ jsNumToString s.frameRate ++ [','] ++
        "scale=".toList ++ jsNumToString s.width ++ [':'] ++ jsNumToString s.height ++
        ":flags=lanczos,split[s0][s1],[s0]palettegen=max_colors=".toList ++
        renderInt ⌊16 + (q : ℚ) / 100 * 240⌋ ++
        "[p],[s1][p]paletteuse=dither=bayer:bayer_scale=5".toList) ∧
    maxColors 80 = 208 ∧ maxColors 1 = 18 ∧ maxColors 100 = 256 := by
  refine ⟨?_, by norm_num [maxColors], by norm_num [maxColors], by norm_num [maxColors]⟩
  rw [buildFFmpegCommand_flatten]
  simp only [List.get?]
  rw [show maxColors s.quality = ⌊16 + (q : ℚ) / 100 * 240⌋ by rw [maxColors, hq]]

/-- C1 witness: the amended statement applied at quality 80. -/
theorem buildFFmpegCommand_palettegen_maxColors_witness :
    (buildFFmpegCommand "input.mp4".toList "output.gif".toList
        ⟨80, 15, 800, 600, 0, 5⟩).get? 7 =
      some ("fps=".toList ++ jsNumToString 15 ++ [','] ++
        "scale=".toList ++ jsNumToString 800 ++ [':'] ++ jsNumToString 600 ++
        ":flags=lanczos,split[s0][s1],[s0]palettegen=max_colors=".toList ++
        renderInt ⌊16 + (80 : ℚ) / 100 * 240⌋ ++
        "[p],[s1][p]paletteuse=dither=bayer:bayer_scale=5".toList) ∧
    maxColors 80 = 208 ∧ maxColors 1 = 18 ∧ maxColors 100 = 256 :=
  buildFFmpegCommand_palettegen_maxColors 80 (by norm_num) (by norm_num)
    "input.mp4".toList "output.gif".toList ⟨80, 15, 800, 600, 0, 5⟩ (by norm_num)

/-- C5, counterexample: width 100 with aspect ratio 7 round-trips to 98,
which differs from 100 by more than the claimed tolerance of 1. -/
theorem dimension_roundtrip_counterexample :
    calculateWidthFromHeight (calculateHeightFromWidth 100 7) 7 = 98 ∧
    ¬(|calculateWidthFromHeight (calculateHeightFromWidth 100 7) 7 - 100| ≤ 1) := by
  have hh : calculateHeightFromWidth 100 7 = 14 := by
    unfold calculateHeightFromWidth mathRound
    norm_num
  have hw : calculateWidthFromHeight 14 7 = 98 := by
    unfold calculateWidthFromHeight mathRound
    norm_num
  rw [hh, hw]
  norm_num

/-- C5 amended: for every integer width in 100 to 1920 and every positive
aspect ratio r, deriving height from width and then width from that height
lands within (r + 1) / 2 of the original width; the claimed tolerance of 1
therefore holds whenever r is at most 1, but not in general. -/
theorem dimension_roundtrip_bound (w : ℤ) (r : ℚ) (hw1 : 100 ≤ w) (hw2 : w ≤ 1920)
    (hr : 0 < r) :
    |calculateWidthFromHeight (calculateHeightFromWidth (w : ℚ) r) r - (w : ℚ)| ≤ (r + 1) / 2 := by
  have hr0 : r ≠ 0 := ne_of_gt hr
  unfold calculateHeightFromWidth
  rw [if_neg hr0]
  unfold calculateWidthFromHeight mathRound
  have h1 : ((⌊(w : ℚ) / r + 1/2⌋ : ℚ)) ≤ (w : ℚ) / r + 1/2 := Int.floor_le _
  have h2 : (w : ℚ) / r + 1/2 < (⌊(w : ℚ) / r + 1/2⌋ : ℚ) + 1 := Int.lt_floor_add_one _
  have e1 : ((⌊(w : ℚ) / r + 1/2⌋ : ℚ)) * r ≤ (w : ℚ) + r / 2 := by
    have := mul_le_mul_of_nonneg_right h1 (le_of_lt hr)
    rw [add_mul, div_mul_cancel₀ _ hr0] at this
    linarith
  have e2 : (w : ℚ) - r / 2 < ((⌊(w : ℚ) / r + 1/2⌋ : ℚ)) * r := by
    have h2' : (w : ℚ) / r - 1/2 < (⌊(w : ℚ) / r + 1/2⌋ : ℚ) := by linarith
    have := mul_lt_mul_of_pos_right h2' hr
    rw [sub_mul, div_mul_cancel₀ _ hr0] at this
    linarith
  have h3 : ((⌊((⌊(w : ℚ) / r + 1/2⌋ : ℚ)) * r + 1/2⌋ : ℚ)) ≤
      ((⌊(w : ℚ) / r + 1/2⌋ : ℚ)) * r + 1/2 := Int.floor_le _
  have h4 : ((⌊(w : ℚ) / r + 1/2⌋ : ℚ)) * r + 1/2 <
      ((⌊((⌊(w : ℚ) / r + 1/2⌋ : ℚ)) * r + 1/2⌋ : ℚ)) + 1 := Int.lt_floor_add_one _
  rw [abs_le]
  constructor <;> linarith

/-- C5 witness: the amended bound applied at width 800 and aspect ratio 4/3. -/
theorem dimension_roundtrip_bound_witness :
    |calculateWidthFromHeight (calculateHeightFromWidth ((800 : ℤ) : ℚ) (4/3)) (4/3) -
      ((800 : ℤ) : ℚ)| ≤ (4/3 + 1) / 2 :=
  dimension_roundtrip_bound 800 (4/3) (by norm_num) (by norm_num) (by norm_num)

/-- C6, counterexample: a settings object whose trim window is invalid
(endTime 2 at or before startTime 5) but whose quality, frame rate, width
and height are in range is reported valid by validateSettings, with no
error at all. -/
theorem validateSettings_trim_counterexample :
    validateSettings ⟨80, 15, 800, 600, 5, 2⟩ = ⟨true, none⟩ ∧
    (⟨80, 15, 800, 600, 5, 2⟩ : ConversionSettings).endTime ≤
      (⟨80, 15, 800, 600, 5, 2⟩ : ConversionSettings).startTime := by
  constructor
  · unfold validateSettings
    norm_num
  · norm_num

/-- C6 amended: validateSettings checks only quality, frame rate, width and
height; a settings object with an invalid trim window but all four checked
fields in range is reported valid, so trim validity is not enforced by the
settings validator. -/
theorem validateSettings_no_trim_check (s : ConversionSettings) (duration : ℚ)
    (htrim : s.endTime ≤ s.startTime ∨ s.startTime < 0 ∨ s.endTime > duration)
    (hq1 : 1 ≤ s.quality) (hq2 : s.quality ≤ 100)
    (hf : s.frameRate = 10 ∨ s.frameRate = 15 ∨ s.frameRate = 20 ∨
      s.frameRate = 24 ∨ s.frameRate = 30)
    (hw1 : 100 ≤ s.width) (hw2 : s.width ≤ 1920)
    (hh1 : 100 ≤ s.height) (hh2 : s.height ≤ 1920) :
    validateSettings s = ⟨true, none⟩ := by
  unfold validateSettings
  rw [if_neg (by push_neg; exact ⟨hq1, hq2⟩), if_neg (not_not_intro hf),
    if_neg (by push_neg; exact ⟨hw1, hw2⟩), if_neg (by push_neg; exact ⟨hh1, hh2⟩)]

/-- C6 witness: the amended statement applied to a concrete settings object
with an inverted trim window. -/
theorem validateSettings_no_trim_check_witness :
    validateSettings ⟨80, 15, 800, 600, 5, 2⟩ = ⟨true, none⟩ :=
  validateSettings_no_trim_check ⟨80, 15, 800, 600, 5, 2⟩ 10
    (Or.inl (by norm_num)) (by norm_num) (by norm_num) (Or.inr (Or.inl rfl))
    (by norm_num) (by norm_num) (by norm_num) (by norm_num)

/-- C10: for a duration above 0.1 and a trim window of length at least 0.1
inside the video, Mark IN keeps the new start in 0 to endTime minus 0.1 and
Mark OUT keeps the new end in startTime plus 0.1 to the duration, so both
operations preserve a trim window of at least 0.1 seconds inside the video. -/
theorem markIn_markOut_preserve_window (d s e ct : ℚ) (hd : 1/10 < d) (hs0 : 0 ≤ s)
    (hse : s ≤ e - 1/10) (hed : e ≤ d) :
    (0 ≤ handleMarkIn ct e ∧ handleMarkIn ct e ≤ e - 1/10) ∧
    (s + 1/10 ≤ handleMarkOut d ct s ∧ handleMarkOut d ct s ≤ d) := by
  unfold handleMarkIn handleMarkOut
  refine ⟨⟨le_max_left 0 _, max_le (by linarith) (min_le_right _ _)⟩,
    ⟨le_min (by linarith) (le_max_right _ _), min_le_left _ _⟩⟩

/-- C10 witness: the statement applied at duration 10, window 0 to 10,
playhead 3. -/
theorem markIn_markOut_preserve_window_witness :
    (0 ≤ handleMarkIn 3 10 ∧ handleMarkIn 3 10 ≤ 10 - 1/10) ∧
    ((0 : ℚ) + 1/10 ≤ handleMarkOut 10 3 0 ∧ handleMarkOut 10 3 0 ≤ 10) :=
  markIn_markOut_preserve_window 10 0 10 3 (by norm_num) (by norm_num) (by norm_num)
    (by norm_num)



lemma digitChar_isDigit : ∀ d : ℕ, d < 10 → isDigit (digitChar d) = true := by decide

lemma digitVal_digitChar : ∀ d : ℕ, d < 10 → digitVal (digitChar d) = d := by decide

lemma digitsVal_append (l : List Char) (c : Char) :
    digitsVal (l ++ [c]) = 10 * digitsVal l + digitVal c := by
  simp [digitsVal, List.foldl_append]

lemma natDigitsAux_val : ∀ fuel n : ℕ, n ≤ fuel → digitsVal (natDigitsAux fuel n) = n := by
  intro fuel
  induction fuel with
  | zero =>
    intro n hn
    interval_cases n
    simp [natDigitsAux, digitsVal]
  | succ f ih =>
    intro n hn
    by_cases h0 : n = 0
    · simp [natDigitsAux, h0, digitsVal]
    · have hlt : n / 10 ≤ f := by omega
      rw [natDigitsAux, if_neg h0, digitsVal_append, ih _ hlt,
        digitVal_digitChar _ (Nat.mod_lt n (by norm_num))]
      omega

lemma natDigitsAux_digits : ∀ fuel n : ℕ, ∀ c ∈ natDigitsAux fuel n, isDigit c = true := by
  intro fuel
  induction fuel with
  | zero => intro n c hc; simp [natDigitsAux] at hc
  | succ f ih =>
    intro n c hc
    by_cases h0 : n = 0
    · simp [natDigitsAux, h0] at hc
    · rw [natDigitsAux, if_neg h0] at hc
      rcases List.mem_append.1 hc with h | h
      · exact ih _ _ h
      · rw [List.mem_singleton.1 h]
        exact digitChar_isDigit _ (Nat.mod_lt n (by norm_num))

lemma renderNat_digits (n : ℕ) : ∀ c ∈ renderNat n, isDigit c = true := by
  intro c hc
  unfold renderNat at hc
  by_cases h0 : n = 0
  · rw [if_pos h0] at hc
    rw [List.mem_singleton.1 hc]
    decide
  · rw [if_neg h0] at hc
    exact natDigitsAux_digits _ _ _ hc

lemma renderNat_ne_nil (n : ℕ) : renderNat n ≠ [] := by
  unfold renderNat
  by_cases h0 : n = 0
  · simp [h0]
  · rw [if_neg h0]
    cases n with
    | zero => exact absurd rfl h0
    | succ m =>
      rw [natDigitsAux, if_neg h0]
      simp

lemma digitsVal_renderNat (n : ℕ) : digitsVal (renderNat n) = n := by
  unfold renderNat
  by_cases h0 : n = 0
  · simp [h0, digitsVal, digitVal]
  · rw [if_neg h0]
    exact natDigitsAux_val n n le_rfl

lemma isDigit_ne (c : Char) (h : isDigit c = true) :
    c ≠ ':' ∧ c ≠ '.' ∧ c ≠ ' ' ∧ c ≠ '-' ∧ c ≠ '+' := by
  refine ⟨?_, ?_, ?_, ?_, ?_⟩ <;> rintro rfl <;> exact absurd h (by decide)

lemma not_mem_of_all_digits (l : List Char) (hall : ∀ c ∈ l, isDigit c = true)
    (c : Char) (hc : isDigit c = false) : c ∉ l := by
  intro hmem
  rw [hall c hmem] at hc
  exact Bool.noConfusion hc

lemma dropWhile_space_of_digits (l : List Char) (hall : ∀ c ∈ l, isDigit c = true) :
    l.dropWhile (fun c => c = ' ') = l := by
  cases l with
  | nil => rfl
  | cons c t =>
    rw [List.dropWhile_cons, if_neg]
    simp only [decide_eq_true_eq]
    exact (isDigit_ne c (hall c (List.mem_cons_self c t))).2.2.1

lemma takeWhile_digits (l : List Char) (hall : ∀ c ∈ l, isDigit c = true) :
    l.takeWhile isDigit = l := by
  induction l with
  | nil => rfl
  | cons c t ih =>
    rw [List.takeWhile_cons, if_pos (hall c (List.mem_cons_self c t))]
    rw [ih (fun x hx => hall x (List.mem_cons_of_mem c hx))]

lemma parseIntDigits_all (l : List Char) (hne : l ≠ [])
    (hall : ∀ c ∈ l, isDigit c = true) : parseIntDigits l = some ((digitsVal l : ℤ)) := by
  unfold parseIntDigits
  rw [takeWhile_digits _ hall, if_neg hne]

lemma parseIntJS_digits (l : List Char) (hne : l ≠ [])
    (hall : ∀ c ∈ l, isDigit c = true) : parseIntJS l = some ((digitsVal l : ℤ)) := by
  unfold parseIntJS
  rw [dropWhile_space_of_digits l hall]
  cases l with
  | nil => exact absurd rfl hne
  | cons c t =>
    have hne' := isDigit_ne c (hall c (List.mem_cons_self c t))
    simp only [List.headD_cons]
    rw [if_neg hne'.2.2.2.1, if_neg hne'.2.2.2.2]
    exact parseIntDigits_all _ hne hall

lemma parseIntJS_renderNat (n : ℕ) : parseIntJS (renderNat n) = some ((n : ℤ)) := by
  rw [parseIntJS_digits _ (renderNat_ne_nil n) (renderNat_digits n), digitsVal_renderNat]

lemma padStart_digits (k : ℕ) (l : List Char) (hall : ∀ c ∈ l, isDigit c = true) :
    ∀ c ∈ padStart k l, isDigit c = true := by
  intro c hc
  rcases List.mem_append.1 hc with h | h
  · rw [List.eq_of_mem_replicate h]
    decide
  · exact hall c h

lemma padStart_ne_nil (k : ℕ) (l : List Char) (hne : l ≠ []) : padStart k l ≠ [] := by
  unfold padStart
  intro h
  rcases List.append_eq_nil.1 h with ⟨_, h2⟩
  exact hne h2

lemma digitsVal_replicate_zero (m : ℕ) (l : List Char) :
    digitsVal (List.replicate m '0' ++ l) = digitsVal l := by
  induction m with
  | zero => simp
  | succ k ih =>
    rw [List.replicate_succ, List.cons_append]
    have h : (10 * 0 + digitVal '0') = 0 := by decide
    simp only [digitsVal, List.foldl_cons, h]
    exact ih

lemma parseIntJS_padStart_renderNat (k n : ℕ) :
    parseIntJS (padStart k (renderNat n)) = some ((n : ℤ)) := by
  rw [parseIntJS_digits _ (padStart_ne_nil k _ (renderNat_ne_nil n))
    (padStart_digits k _ (renderNat_digits n))]
  unfold padStart
  rw [digitsVal_replicate_zero, digitsVal_renderNat]



lemma jsSplit_not_mem (c : Char) (l : List Char) (h : c ∉ l) : jsSplit c l = [l] := by
  induction l with
  | nil => rfl
  | cons x xs ih =>
    have hx : x ≠ c := fun hxc => h (hxc ▸ List.mem_cons_self x xs)
    rw [jsSplit, if_neg hx, ih (fun hm => h (List.mem_cons_of_mem x hm))]

lemma jsSplit_append (c : Char) (a b : List Char) (h : c ∉ a) :
    jsSplit c (a ++ c :: b) = a :: jsSplit c b := by
  induction a with
  | nil =>
    rw [List.nil_append, jsSplit, if_pos rfl]
  | cons x a' ih =>
    have hx : x ≠ c := fun hxc => h (hxc ▸ List.mem_cons_self x a')
    rw [List.cons_append, jsSplit, if_neg hx, ih (fun hm => h (List.mem_cons_of_mem x hm))]

lemma jsSplit_single (c : Char) (a b : List Char) (ha : c ∉ a) (hb : c ∉ b) :
    jsSplit c (a ++ c :: b) = [a, b] := by
  rw [jsSplit_append c a b ha, jsSplit_not_mem c b hb]

/-- Parsing a rendered M:SS.CC triple recovers minutes, seconds and
centisecond value over one hundred. -/
lemma parseTime_rendered (m s c : ℕ) :
    parseTime (renderNat m ++ ':' ::
        (padStart 2 (renderNat s) ++ '.' :: padStart 2 (renderNat c))) =
      some (some ((m : ℚ) * 60 + (s : ℚ) + (c : ℚ) / 100)) := by
  have hmnot : ':' ∉ renderNat m :=
    not_mem_of_all_digits _ (renderNat_digits m) ':' (by decide)
  have hsnot : ∀ x ∈ padStart 2 (renderNat s), isDigit x = true :=
    padStart_digits 2 _ (renderNat_digits s)
  have hcnot : ∀ x ∈ padStart 2 (renderNat c), isDigit x = true :=
    padStart_digits 2 _ (renderNat_digits c)
  have hrest : ':' ∉ padStart 2 (renderNat s) ++ '.' :: padStart 2 (renderNat c) := by
    intro hmem
    rcases List.mem_append.1 hmem with h | h
    · exact absurd (hsnot _ h) (by decide)
    · rcases List.mem_cons.1 h with h' | h'
      · exact absurd h' (by decide)
      · exact absurd (hcnot _ h') (by decide)
  unfold parseTime
  rw [jsSplit_single ':' _ _ hmnot hrest]
  rw [parseTimeParts]
  rw [jsSplit_single '.' _ _
    (not_mem_of_all_digits _ hsnot '.' (by decide))
    (not_mem_of_all_digits _ hcnot '.' (by decide))]
  simp only [List.headD_cons]
  rw [parseIntJS_renderNat m, parseIntJS_padStart_renderNat 2 s]
  rw [parseMs, if_neg (padStart_ne_nil 2 _ (renderNat_ne_nil c)),
    parseIntJS_padStart_renderNat 2 c]
  simp

lemma renderInt_nonneg (i : ℤ) (h : 0 ≤ i) : renderInt i = renderNat i.natAbs := by
  unfold renderInt
  rw [if_neg (not_lt.2 h)]

/-- The remainder operator on a nonnegative dividend and positive divisor. -/
lemma jsFmod_nonneg_eq (x b : ℚ) (hx : 0 ≤ x) (hb : 0 < b) :
    jsFmod x b = x - b * (⌊x / b⌋ : ℚ) := by
  unfold jsFmod jsTrunc
  rw [if_pos (div_nonneg hx hb.le)]

/-- formatTime of a nonnegative number in component form. -/
lemma formatTime_eq (x : ℚ) (hx : 0 ≤ x) :
    formatTime x = renderNat (⌊x / 60⌋).natAbs ++ ':' ::
      (padStart 2 (renderNat (⌊x⌋ - 60 * ⌊x / 60⌋).natAbs) ++ '.' ::
        padStart 2 (renderNat (⌊(x - (⌊x⌋ : ℚ)) * 100⌋).natAbs)) := by
  have hm : (0 : ℤ) ≤ ⌊x / 60⌋ := Int.floor_nonneg.2 (by positivity)
  have h60 : jsFmod x 60 = x - 60 * (⌊x / 60⌋ : ℚ) := jsFmod_nonneg_eq x 60 hx (by norm_num)
  have h1 : jsFmod x 1 = x - (⌊x⌋ : ℚ) := by
    rw [jsFmod_nonneg_eq x 1 hx (by norm_num)]
    rw [div_one]
    ring
  have hfloor60 : ⌊jsFmod x 60⌋ = ⌊x⌋ - 60 * ⌊x / 60⌋ := by
    rw [h60]
    rw [show x - 60 * (⌊x / 60⌋ : ℚ) = x - ((60 * ⌊x / 60⌋ : ℤ) : ℚ) by push_cast; ring]
    rw [Int.floor_sub_int]
  have hsec : (0 : ℤ) ≤ ⌊x⌋ - 60 * ⌊x / 60⌋ := by
    rw [← hfloor60]
    apply Int.floor_nonneg.2
    rw [h60]
    have : (⌊x / 60⌋ : ℚ) ≤ x / 60 := Int.floor_le _
    nlinarith
  have hms : (0 : ℤ) ≤ ⌊(x - (⌊x⌋ : ℚ)) * 100⌋ := by
    apply Int.floor_nonneg.2
    have : (⌊x⌋ : ℚ) ≤ x := Int.floor_le x
    nlinarith
  unfold formatTime mathFloor
  simp only []
  rw [hfloor60, h1, renderInt_nonneg _ hm, renderInt_nonneg _ hsec, renderInt_nonneg _ hms]



theorem parseTime_formatTime_roundtrip (x : ℚ) (hx0 : 0 ≤ x) (hx1 : x ≤ 3599) :
    ∃ q : ℚ, parseTime (formatTime x) = some (some q) ∧ |q - x| ≤ 1/100 := by
  have hm : (0 : ℤ) ≤ ⌊x / 60⌋ := Int.floor_nonneg.2 (by positivity)
  have hsec60 : ((60 * ⌊x / 60⌋ : ℤ) : ℚ) ≤ x := by
    push_cast
    linarith [Int.floor_le (x / 60)]
  have hsec : (0 : ℤ) ≤ ⌊x⌋ - 60 * ⌊x / 60⌋ := by
    have := Int.le_floor.2 hsec60
    omega
  have hmsq : (0 : ℚ) ≤ (x - (⌊x⌋ : ℚ)) * 100 := by
    have := Int.floor_le x
    nlinarith
  have hms : (0 : ℤ) ≤ ⌊(x - (⌊x⌋ : ℚ)) * 100⌋ := Int.floor_nonneg.2 hmsq
  rw [formatTime_eq x hx0, parseTime_rendered]
  refine ⟨_, rfl, ?_⟩
  have hcm : (((⌊x / 60⌋).natAbs : ℕ) : ℚ) = ((⌊x / 60⌋ : ℤ) : ℚ) := by
    rw [Int.cast_natAbs]
    rw [abs_of_nonneg (by exact_mod_cast hm)]
  have hcs : (((⌊x⌋ - 60 * ⌊x / 60⌋).natAbs : ℕ) : ℚ) =
      ((⌊x⌋ - 60 * ⌊x / 60⌋ : ℤ) : ℚ) := by
    rw [Int.cast_natAbs]
    rw [abs_of_nonneg (by exact_mod_cast hsec)]
  have hcc : (((⌊(x - (⌊x⌋ : ℚ)) * 100⌋).natAbs : ℕ) : ℚ) =
      ((⌊(x - (⌊x⌋ : ℚ)) * 100⌋ : ℤ) : ℚ) := by
    rw [Int.cast_natAbs]
    rw [abs_of_nonneg (by exact_mod_cast hms)]
  rw [hcm, hcs, hcc]
  have hb1 : ((⌊(x - (⌊x⌋ : ℚ)) * 100⌋ : ℤ) : ℚ) ≤ (x - (⌊x⌋ : ℚ)) * 100 :=
    Int.floor_le _
  have hb2 : (x - (⌊x⌋ : ℚ)) * 100 < ((⌊(x - (⌊x⌋ : ℚ)) * 100⌋ : ℤ) : ℚ) + 1 :=
    Int.lt_floor_add_one _
  rw [abs_le]
  push_cast
  constructor <;> linarith

theorem parseTime_formatTime_roundtrip_witness :
    ∃ q : ℚ, parseTime (formatTime (3599/2)) = some (some q) ∧ |q - 3599/2| ≤ 1/100 :=
  parseTime_formatTime_roundtrip (3599/2) (by norm_num) (by norm_num)



/-- C3 counterexample: when the engine execution fails, convertToGif throws
the wrapped error but the staged input is left in the engine private
storage. -/
theorem convertToGif_failure_no_cleanup_counterexample :
    (convertToGif true [] [] (Except.error "codec")).fs = [inputFileName] ∧
    inputFileName ∈ (convertToGif true [] [] (Except.error "codec")).fs ∧
    (convertToGif true [] [] (Except.error "codec")).result =
      Except.error ("Video conversion failed: codec. Please try a different video file or adjust the settings.") := by
  refine ⟨rfl, ?_, rfl⟩
  rw [show (convertToGif true [] [] (Except.error "codec")).fs = [inputFileName] from rfl]
  exact List.mem_singleton.2 rfl

/-- The staged input and output names differ. -/
lemma inputFileName_ne_outputFileName : inputFileName ≠ outputFileName := by decide

/-- Membership after a delete from the engine private storage. -/
lemma mem_vfsDelete (fs : List String) (name x : String) :
    x ∈ vfsDelete fs name ↔ x ∈ fs ∧ x ≠ name := by
  simp [vfsDelete]

/-- A written name is present in the engine private storage. -/
lemma mem_vfsWrite_self (fs : List String) (name : String) : name ∈ vfsWrite fs name := by
  unfold vfsWrite
  split_ifs with h
  · exact h
  · simp

/-- C3 amended: convertToGif removes the staged input and output from the
engine private storage on the success path, but on the failure path the
staged input remains. -/
theorem convertToGif_cleanup (fs0 : List String) (events : List LogEvent) (msg : String) :
    inputFileName ∉ (convertToGif true fs0 events (Except.ok ())).fs ∧
    outputFileName ∉ (convertToGif true fs0 events (Except.ok ())).fs ∧
    inputFileName ∈ (convertToGif true fs0 events (Except.error msg)).fs := by
  unfold convertToGif
  norm_num
  refine ⟨?_, ?_, ?_⟩
  · intro hmem
    rw [mem_vfsDelete, mem_vfsDelete] at hmem
    exact hmem.1.2 rfl
  · intro hmem
    rw [mem_vfsDelete] at hmem
    exact hmem.2 rfl
  · exact mem_vfsWrite_self fs0 inputFileName



/-- The throttled progress value is monotone in the current time for a fixed
duration. -/
lemma progress_mono (D : ℕ) {c c' : ℕ} (h : c ≤ c') : progressOf D c ≤ progressOf D c' := by
  unfold progressOf
  rcases Nat.eq_zero_or_pos D with hD | hD
  · subst hD
    simp
  · refine min_le_min ?_ le_rfl
    have hD' : (0 : ℚ) < (D : ℚ) := by exact_mod_cast hD
    have hc : (c : ℚ) ≤ (c' : ℚ) := by exact_mod_cast h
    gcongr

/-- Every reported progress value lies between 0 and 100. -/
lemma progress_in_range (D c : ℕ) : 0 ≤ progressOf D c ∧ progressOf D c ≤ 100 :=
  ⟨le_min (by positivity) (by norm_num), min_le_right _ _⟩

/-- Folding the log handler appends, to the accumulated report list, a
sublist of the progress values of the time matches, provided every Duration
match denotes the same duration D and the state starts with duration zero
or D. -/
lemma foldl_logStep_sublist (D : ℕ) :
    ∀ (events : List LogEvent) (st : ProgressState) (acc : List ℚ),
      (∀ e ∈ events, ∀ t, e.durMatch = some t → hmsToSecs t = D) →
      (st.videoDuration = 0 ∨ st.videoDuration = D) →
      ∃ ext, (events.foldl logStep (st, acc)).2 = acc ++ ext ∧
        List.Sublist ext ((timeSecs events).map (progressOf D)) := by
  intro events
  induction events with
  | nil =>
    intro st acc _ _
    exact ⟨[], by simp, by simp⟩
  | cons e rest ih =>
    intro st acc hdur hD
    obtain ⟨n, dm, tm⟩ := e
    have hdur' : ∀ e' ∈ rest, ∀ t, e'.durMatch = some t → hmsToSecs t = D :=
      fun e' he' t ht => hdur e' (List.mem_cons_of_mem _ he') t ht
    cases dm with
    | none =>
      cases tm with
      | none =>
        rw [List.foldl_cons]
        rw [show logStep (st, acc) ⟨n, none, none⟩ = (st, acc) from rfl]
        rw [show timeSecs (⟨n, none, none⟩ :: rest) = timeSecs rest from rfl]
        exact ih st acc hdur' hD
      | some t1 =>
        rw [List.foldl_cons]
        rw [show timeSecs (⟨n, none, some t1⟩ :: rest) = hmsToSecs t1 :: timeSecs rest from rfl]
        by_cases h1 : 0 < st.videoDuration
        · by_cases h2 : (100 : ℤ) ≤ n - st.lastProgressUpdate
          · have hDst : st.videoDuration = D := by
              rcases hD with h | h
              · omega
              · exact h
            rw [show logStep (st, acc) ⟨n, none, some t1⟩ =
              (ProgressState.mk st.videoDuration n,
               acc ++ [progressOf st.videoDuration (hmsToSecs t1)]) from by
                simp [logStep, h1, h2, progressOf]]
            obtain ⟨ext, hext, hsub⟩ := ih (ProgressState.mk st.videoDuration n)
              (acc ++ [progressOf st.videoDuration (hmsToSecs t1)]) hdur' (Or.inr hDst)
            refine ⟨progressOf st.videoDuration (hmsToSecs t1) :: ext, ?_, ?_⟩
            · rw [hext, List.append_assoc]
              rfl
            · rw [List.map_cons, hDst]
              exact List.Sublist.cons₂ _ hsub
          · rw [show logStep (st, acc) ⟨n, none, some t1⟩ = (st, acc) from by
              simp [logStep, h1, h2]]
            obtain ⟨ext, hext, hsub⟩ := ih st acc hdur' hD
            exact ⟨ext, hext, by rw [List.map_cons]; exact List.Sublist.cons _ hsub⟩
        · rw [show logStep (st, acc) ⟨n, none, some t1⟩ = (st, acc) from by
            simp [logStep, h1]]
          obtain ⟨ext, hext, hsub⟩ := ih st acc hdur' hD
          exact ⟨ext, hext, by rw [List.map_cons]; exact List.Sublist.cons _ hsub⟩
    | some t0 =>
      have hD0 : hmsToSecs t0 = D := hdur ⟨n, some t0, tm⟩ (List.mem_cons_self _ _) t0 rfl
      cases tm with
      | none =>
        rw [List.foldl_cons]
        rw [show logStep (st, acc) ⟨n, some t0, none⟩ =
          (ProgressState.mk (hmsToSecs t0) st.lastProgressUpdate, acc) from rfl]
        rw [show timeSecs (⟨n, some t0, none⟩ :: rest) = timeSecs rest from rfl]
        exact ih (ProgressState.mk (hmsToSecs t0) st.lastProgressUpdate) acc hdur' (Or.inr hD0)
      | some t1 =>
        rw [List.foldl_cons]
        rw [show timeSecs (⟨n, some t0, some t1⟩ :: rest) =
          hmsToSecs t1 :: timeSecs rest from rfl]
        by_cases h1 : 0 < hmsToSecs t0
        · by_cases h2 : (100 : ℤ) ≤ n - st.lastProgressUpdate
          · rw [show logStep (st, acc) ⟨n, some t0, some t1⟩ =
              (ProgressState.mk (hmsToSecs t0) n,
               acc ++ [progressOf (hmsToSecs t0) (hmsToSecs t1)]) from by
                simp [logStep, h1, h2, progressOf]]
            obtain ⟨ext, hext, hsub⟩ := ih (ProgressState.mk (hmsToSecs t0) n)
              (acc ++ [progressOf (hmsToSecs t0) (hmsToSecs t1)]) hdur' (Or.inr hD0)
            refine ⟨progressOf (hmsToSecs t0) (hmsToSecs t1) :: ext, ?_, ?_⟩
            · rw [hext, List.append_assoc]
              rfl
            · rw [List.map_cons, hD0]
              exact List.Sublist.cons₂ _ hsub
          · rw [show logStep (st, acc) ⟨n, some t0, some t1⟩ =
              (ProgressState.mk (hmsToSecs t0) st.lastProgressUpdate, acc) from by
                simp [logStep, h1, h2]]
            obtain ⟨ext, hext, hsub⟩ := ih (ProgressState.mk (hmsToSecs t0) st.lastProgressUpdate)
              acc hdur' (Or.inr hD0)
            exact ⟨ext, hext, by rw [List.map_cons]; exact List.Sublist.cons _ hsub⟩
        · rw [show logStep (st, acc) ⟨n, some t0, some t1⟩ =
            (ProgressState.mk (hmsToSecs t0) st.lastProgressUpdate, acc) from by
              simp [logStep, h1]]
          obtain ⟨ext, hext, hsub⟩ := ih (ProgressState.mk (hmsToSecs t0) st.lastProgressUpdate)
            acc hdur' (Or.inr hD0)
          exact ⟨ext, hext, by rw [List.map_cons]; exact List.Sublist.cons _ hsub⟩



/-- C7 counterexample: over a job whose engine log reports time 8 and then
time 7 of a 10 second duration, convertToGif delivers 80, then 70, then
100, a decreasing sequence. -/
theorem convertToGif_progress_counterexample :
    (convertToGif true [] badEvents (Except.ok ())).emitted = [80, 70, 100] ∧
    ¬ List.Chain' (· ≤ ·) ((convertToGif true [] badEvents (Except.ok ())).emitted) := by
  have h : (convertToGif true [] badEvents (Except.ok ())).emitted = [80, 70, 100] := by
    simp [convertToGif, runLogHandler, badEvents, logStep, hmsToSecs]
    norm_num
  refine ⟨h, ?_⟩
  rw [h]
  intro hc
  rw [List.chain'_cons] at hc
  exact absurd hc.1 (by norm_num)

/-- C7 amended: provided the engine log announces a single duration value
and its reported times are non-decreasing, the progress values delivered by
convertToGif over one successful job are non-decreasing, all lie in 0 to
100, and the last delivered value is exactly 100. -/
theorem convertToGif_progress (fs0 : List String) (events : List LogEvent) (D : ℕ)
    (hdur : ∀ e ∈ events, ∀ t, e.durMatch = some t → hmsToSecs t = D)
    (hmono : List.Chain' (· ≤ ·) (timeSecs events)) :
    List.Chain' (· ≤ ·) ((convertToGif true fs0 events (Except.ok ())).emitted) ∧
    (∀ v ∈ (convertToGif true fs0 events (Except.ok ())).emitted, 0 ≤ v ∧ v ≤ 100) ∧
    ((convertToGif true fs0 events (Except.ok ())).emitted).getLast? = some 100 := by
  have hem : (convertToGif true fs0 events (Except.ok ())).emitted
      = runLogHandler events ++ [100] := by
    simp [convertToGif]
  obtain ⟨ext, hext, hsub⟩ := foldl_logStep_sublist D events ⟨0, 0⟩ [] hdur (Or.inl rfl)
  have hrun : runLogHandler events = ext := by
    rw [runLogHandler, hext]
    simp
  have hmap : List.Chain' (· ≤ ·) ((timeSecs events).map (progressOf D)) := by
    rw [List.chain'_map]
    exact hmono.imp (fun a b h => progress_mono D h)
  have hextsorted : ext.Pairwise (· ≤ ·) :=
    (List.chain'_iff_pairwise.1 hmap).sublist hsub
  have hextmem : ∀ v ∈ ext, 0 ≤ v ∧ v ≤ 100 := by
    intro v hv
    obtain ⟨c, _, rfl⟩ := List.mem_map.1 (hsub.subset hv)
    exact progress_in_range D c
  refine ⟨?_, ?_, ?_⟩
  · rw [hem, hrun, List.chain'_append]
    refine ⟨List.chain'_iff_pairwise.2 hextsorted, by simp, ?_⟩
    intro x hx y hy
    have hxmem : x ∈ ext := List.mem_of_mem_getLast? hx
    have hy100 : (100 : ℚ) = y := by simpa using hy
    rw [← hy100]
    exact (hextmem x hxmem).2
  · rw [hem, hrun]
    intro v hv
    rcases List.mem_append.1 hv with hmem | hmem
    · exact hextmem v hmem
    · rw [List.mem_singleton.1 hmem]
      norm_num
  · rw [hem]
    exact List.getLast?_concat _

/-- C7 witness: the amended statement applied to a well behaved log with
duration 10 and times 8 then 9. -/
theorem convertToGif_progress_witness :
    List.Chain' (· ≤ ·) ((convertToGif true [] goodEvents (Except.ok ())).emitted) ∧
    (∀ v ∈ (convertToGif true [] goodEvents (Except.ok ())).emitted, 0 ≤ v ∧ v ≤ 100) ∧
    ((convertToGif true [] goodEvents (Except.ok ())).emitted).getLast? = some 100 := by
  refine convertToGif_progress [] goodEvents 10 ?_ ?_
  · intro e he t ht
    rcases List.mem_cons.1 he with rfl | he'
    · cases ht
      rfl
    · rcases List.mem_cons.1 he' with rfl | he''
      · cases ht
      · cases he''
  · rw [show timeSecs goodEvents = [8, 9] from rfl]
    exact List.chain'_cons.2 ⟨by norm_num, List.chain'_singleton _⟩



/-- C2 counterexample: invoking handleConvert while the status is already
processing is not a no-op: the guard only checks for a file and metadata,
so a second job starts and the state changes. -/
theorem handleConvert_processing_counterexample :
    processingState.conversionStatus = ConversionStatus.processing ∧
    (handleConvert processingState (Except.ok ())
      (ConvOutcome.resolves 1000 (Except.ok "blob"))).started = true ∧
    (handleConvert processingState (Except.ok ())
      (ConvOutcome.resolves 1000 (Except.ok "blob"))).final ≠ processingState := by
  refine ⟨rfl, rfl, ?_⟩
  intro h
  exact ConversionStatus.noConfusion (congrArg ConverterState.conversionStatus h)

/-- C2 amended: handleConvert is a no-op exactly when the file or the
metadata is missing; reentry during processing is prevented only by the
page disabling the convert button while converting or loading. -/
theorem handleConvert_guard (s : ConverterState) (initR : Except String Unit)
    (conv : ConvOutcome) :
    (s.uploadedFile = none ∨ s.videoMetadata = none →
      handleConvert s initR conv = ⟨false, s, none, false⟩) ∧
    (s.conversionStatus = ConversionStatus.processing → convertButtonDisabled s = true) := by
  constructor
  · intro h
    unfold handleConvert
    rw [if_pos h]
  · intro h
    unfold convertButtonDisabled isConverting
    rw [h]
    simp

/-- C2 witness: the guard applied to the empty initial state, and the
button condition applied to a processing state. -/
theorem handleConvert_guard_witness :
    handleConvert initialState (Except.ok ()) ConvOutcome.never =
      ⟨false, initialState, none, false⟩ ∧
    convertButtonDisabled processingState = true :=
  ⟨(handleConvert_guard initialState (Except.ok ()) ConvOutcome.never).1 (Or.inl rfl),
   (handleConvert_guard processingState (Except.ok ()) ConvOutcome.never).2 rfl⟩

/-- The handleConvert catch handler keeps the timeout message verbatim. -/
lemma classify_timeoutMessage : classifyConversionError timeoutMessage = timeoutMessage := by
  unfold classifyConversionError
  rw [if_pos (by decide : jsIncludes timeoutMessage "timed out" = true)]

/-- C9 counterexample: when the engine convert call never resolves, the
orchestrator reports the timeout error, but the engine convert call is
still pending when handleConvert finishes, so the engine is left busy. -/
theorem handleConvert_timeout_counterexample :
    (handleConvert readyState (Except.ok ()) ConvOutcome.never).enginePending = true ∧
    (handleConvert readyState (Except.ok ()) ConvOutcome.never).final.conversionStatus =
      ConversionStatus.error := by
  constructor <;> rfl

/-- C9 amended: a never resolving engine convert call makes handleConvert
settle at exactly the five minute timeout, store the timeout message as a
recoverable conversion error carrying a retry action, and set status error;
but the engine convert call itself is not cancelled and remains in flight,
so the engine is not returned to an idle state by the orchestrator. -/
theorem handleConvert_timeout (s : ConverterState) (hf : s.uploadedFile ≠ none)
    (hm : s.videoMetadata ≠ none) (hl : s.ffmpegLoaded = true) :
    (handleConvert s (Except.ok ()) ConvOutcome.never).settledAt = some CONVERSION_TIMEOUT ∧
    (handleConvert s (Except.ok ()) ConvOutcome.never).final.conversionStatus =
      ConversionStatus.error ∧
    (handleConvert s (Except.ok ()) ConvOutcome.never).final.error =
      some ⟨"conversion", timeoutMessage, true, true⟩ ∧
    (handleConvert s (Except.ok ()) ConvOutcome.never).started = true ∧
    (handleConvert s (Except.ok ()) ConvOutcome.never).enginePending = true := by
  unfold handleConvert
  rw [if_neg (by push_neg; exact ⟨hf, hm⟩)]
  simp only [hl, if_true, classify_timeoutMessage, converterReducer]
  simp

/-- C9 witness: the amended statement applied to the ready state. -/
theorem handleConvert_timeout_witness :
    (handleConvert readyState (Except.ok ()) ConvOutcome.never).settledAt =
      some CONVERSION_TIMEOUT ∧
    (handleConvert readyState (Except.ok ()) ConvOutcome.never).final.conversionStatus =
      ConversionStatus.error ∧
    (handleConvert readyState (Except.ok ()) ConvOutcome.never).final.error =
      some ⟨"conversion", timeoutMessage, true, true⟩ ∧
    (handleConvert readyState (Except.ok ()) ConvOutcome.never).started = true ∧
    (handleConvert readyState (Except.ok ()) ConvOutcome.never).enginePending = true :=
  handleConvert_timeout readyState (by simp [readyState]) (by simp [readyState]) rfl

end GifMaker
